import Mathlib

/-!
Verification development for the `twiml` package

Shallow embedding of `twiml.go`: the `Markup` interface, `ValidationError`,
the `Response` container and its operations `Validate`, `Add`, `Encode` and
`String`.

Modelling conventions.

* A Go `error` value is a `GoError`; the `nil` error is `none` in
  `Option GoError`.
* A non-nil `Markup` interface value is the record of what the container can
  observe of it: its dynamic type as the verb `%T` prints it, the result of
  `Type()` and the result of `Validate()` (children's methods are pure).
* `[]byte` is `List UInt8`; a Go `string` produced from bytes is `GoText`.
* `encoding/xml` is a library outside the package: `Encode` takes the
  behaviour of `enc.Encode(r)` on the indented encoder as a parameter.
* For what a call leaves behind, `Response.EncodeCall` runs the statements of
  `Encode` on an explicit memory (the struct behind the receiver and the
  buffer); there the library call is an arbitrary transformer of that memory,
  and `encodeCall_ofPure` relates it to `Response.Encode`.
-/

namespace Twiml

/-! ## Errors -/

/-- Go error values met in the package: the value built by `fmt.Errorf` (its
`Error()` is the formatted message) and a `ValidationError` holding a slice of
errors. -/
inductive GoError where
  | errorString (s : String)
  | validationError (Errors : List GoError)

/-- Library function `strings.Join(elems, sep)`: empty for no element, else the
first element followed by each further element preceded by `sep`. -/
def stringsJoin : List String → String → String
  | [], _ => ""
  | e :: es, sep => es.foldl (fun b s => b ++ sep ++ s) e

/-- First element of the slice built by `ValidationError.Error`. -/
def banner : String := "Invalid TwiML markup:"

mutual
/-- Method `Error()` of an error value; for a `ValidationError` this is
`ValidationError.Error` of the source. -/
def GoError.Error : GoError → String
  | .errorString s => s
  | .validationError errs => stringsJoin (banner :: GoError.ErrorAll errs) "\n"
/-- The loop `for _, err := range v.Errors { e = append(e, err.Error()) }`. -/
def GoError.ErrorAll : List GoError → List String
  | [] => []
  | err :: rest => err.Error :: GoError.ErrorAll rest
end

/-- Struct `ValidationError`. -/
structure ValidationError where
  Errors : List GoError

/-- A `ValidationError` used as an `error` value. -/
def ValidationError.toError (v : ValidationError) : GoError :=
  .validationError v.Errors

/-- Method `ValidationError.Error`. -/
def ValidationError.Error (v : ValidationError) : String :=
  v.toError.Error

/-! ## Markup and Response -/

/-- A non-nil value of interface `Markup`. -/
structure Markup where
  /-- Dynamic type of the value as `%T` prints it. -/
  goType : String
  /-- Result of `Type()`. -/
  Type_ : String
  /-- Result of `Validate()`; `none` is `nil`. -/
  Validate : Option GoError

/-- Library struct `xml.Name`. -/
structure XMLName where
  Space : String
  Local : String

/-- Struct `Response`. -/
structure Response where
  XMLName : XMLName
  IgnoreValidationErrors : Bool
  Children : List Markup

/-- Method `Response.Type`. -/
def Response.Type_ (_r : Response) : String := "Response"

/-- The `case` list of the switch in `Response.Validate`. -/
def whitelist : List String :=
  ["Enqueue", "Hangup", "Leave", "Pause", "Play", "Record", "Redirect", "Reject",
   "Say", "Dial", "Gather", "Sms", "Start", "Stop", "Connect"]

/-- Message of the error built in the `default` branch:
`fmt.Errorf("Unknown markup type %T as child of Response", s)`. -/
def unknownTypeMsg (s : Markup) : String :=
  "Unknown markup type " ++ s.goType ++ " as child of Response"

/-- The `for _, s := range r.Children` loop of `Response.Validate` together with
the code after it; `errs` is the slice accumulated so far. -/
def Response.validateLoop : List Markup → List GoError → Option GoError
  | [], errs =>
    if errs.length > 0 then some (.validationError errs) else none
  | s :: rest, errs =>
    if s.Type_ ∈ whitelist then
      match s.Validate with
      | some childErr => Response.validateLoop rest (errs ++ [childErr])
      | none => Response.validateLoop rest errs
    else
      some (.validationError [.errorString (unknownTypeMsg s)])

/-- Method `Response.Validate`. -/
def Response.Validate (r : Response) : Option GoError :=
  if r.Children.length = 0 then
    some (.validationError [.errorString "Can not encode an empty response"])
  else
    Response.validateLoop r.Children []

/-- A `*Response` used as a `Markup` value. -/
def Response.toMarkup (r : Response) : Markup :=
  { goType := "*twiml.Response", Type_ := r.Type_, Validate := r.Validate }

/-- Function `NewResponse`: the zero value of `Response`. -/
def NewResponse : Response :=
  { XMLName := { Space := "", Local := "" }, IgnoreValidationErrors := false, Children := [] }

/-- Method `Response.Add`: `r.Children = append(r.Children, s)` for each argument. -/
def Response.Add (r : Response) (ml : List Markup) : Response :=
  ml.foldl (fun acc s => { acc with Children := acc.Children ++ [s] }) r

/-! ## Encoding -/

/-- Go `[]byte`. -/
abbrev Bytes := List UInt8

/-- A Go `string` obtained from bytes. -/
structure GoText where
  bytes : List UInt8

/-- Conversion `string(b)`. -/
def GoText.ofBytes (b : Bytes) : GoText := { bytes := b }

/-- Library constant `xml.Header`. -/
def xmlHeader : String := "<?xml version=\"1.0\" encoding=\"UTF-8\"?>\n"

/-- Conversion `[]byte(s)` of a string constant. -/
def bytesOfString (s : String) : Bytes := s.toUTF8.data.toList

/-- Library method `(*bytes.Buffer).Write`: appends, and its error is always nil. -/
def bufWrite (buf p : Bytes) : Bytes × Option GoError := (buf ++ p, none)

/-- Behaviour of `enc.Encode(r)` for the encoder `xml.NewEncoder(buf)` indented
with `("", "  ")`: the bytes it appends to the buffer and the error it returns. -/
abbrev XmlEncode := Response → Bytes × Option GoError

/-- Method `Response.Encode`. -/
def Response.Encode (enc : XmlEncode) (r : Response) : Bytes × Option GoError :=
  let buf : Bytes := []
  match r.Validate with
  | some err => (buf, some err)
  | none =>
    match bufWrite buf (bytesOfString xmlHeader) with
    | (buf1, some err) => (buf1, some err)
    | (buf1, none) =>
      match enc r with
      | (out, some err) => (buf1 ++ out, some err)
      | (out, none) => (buf1 ++ out, none)

/-- Method `Response.String`. -/
def Response.String (enc : XmlEncode) (r : Response) : GoText × Option GoError :=
  match Response.Encode enc r with
  | (b, err) => (GoText.ofBytes b, err)

/-- Substring containment of messages, as `strings.Contains(s, sub)`. -/
def containsText (s sub : String) : Prop := sub.data <:+: s.data

instance (s sub : String) : Decidable (containsText s sub) := by
  unfold containsText; infer_instance

/-- A behaviour of the library encoder, used to evaluate `Encode` on concrete
inputs: it appends an empty root element and returns no error. -/
def sampleEncode : XmlEncode :=
  fun _ => (bytesOfString "<Response></Response>", none)

/-- The verb node `&Say{}` with a passing `Validate`. -/
def sayOk : Markup :=
  { goType := "*twiml.Say", Type_ := "Say", Validate := none }

/-- A `Say` node whose own `Validate` fails. -/
def sayBad : Markup :=
  { goType := "*twiml.Say", Type_ := "Say",
    Validate := some (.validationError [.errorString "Say: invalid voice"]) }

/-- A `Play` node whose own `Validate` fails. -/
def playBad : Markup :=
  { goType := "*twiml.Play", Type_ := "Play",
    Validate := some (.validationError [.errorString "Play: invalid loop"]) }

/-- A node whose `Type()` is outside the `case` list. -/
def messageNode : Markup :=
  { goType := "*twiml.Message", Type_ := "Message", Validate := none }

/-- The error returned for a `Response` without children. -/
def emptyResponseError : GoError :=
  .validationError [.errorString "Can not encode an empty response"]

/-- The single-error result of the `default` branch for child `s`. -/
def unknownTypeError (s : Markup) : GoError :=
  .validationError [.errorString (unknownTypeMsg s)]

/-! ## Calls on the receiver -/

/-- Memory a call of `Encode` works on: the struct its receiver `r *Response`
points to and the content of the buffer `buf`. -/
structure EncodeMem where
  r : Response
  buf : Bytes

/-- Library call `enc.Encode(r)` for `enc := xml.NewEncoder(buf)`. The call is
handed the pointer `r` and writes through `buf`, so it takes the memory before
the call to the memory after it and to the returned error. The first argument
stands for everything outside these two objects that the library's result may
depend on; nothing is assumed of the call here. -/
abbrev XmlEncodeCall := Nat → EncodeMem → EncodeMem × Option GoError

/-- The library call given by an encoder behaviour `enc`: it appends the bytes
of `enc` to the buffer and leaves the receiver as it is. -/
def XmlEncodeCall.ofPure (enc : XmlEncode) : XmlEncodeCall :=
  fun _ m => ({ m with buf := m.buf ++ (enc m.r).1 }, (enc m.r).2)

/-- A library call whose bytes vary with its first argument. -/
def unstableCall : XmlEncodeCall :=
  fun w m => ({ m with buf := m.buf ++ [UInt8.ofNat w] }, none)

/-- A library call that clears the children of the struct it is handed. -/
def clearingCall : XmlEncodeCall :=
  fun _ m => ({ m with r := { m.r with Children := [] } }, none)

/-- Method `Response.Encode` as a call on the receiver: statement by statement
on the memory, giving the two results and the struct the receiver points to
after the call. `w` is the argument handed on to the library call. -/
def Response.EncodeCall (lib : XmlEncodeCall) (w : Nat) (r : Response) :
    (Bytes × Option GoError) × Response :=
  -- var buf = new(bytes.Buffer)
  let m0 : EncodeMem := { r := r, buf := [] }
  -- if err := r.Validate(); err != nil { return buf.Bytes(), err }
  match m0.r.Validate with
  | some err => ((m0.buf, some err), m0.r)
  | none =>
    -- _, err := buf.Write([]byte(xml.Header))
    match bufWrite m0.buf (bytesOfString xmlHeader) with
    | (b1, some err) => ((b1, some err), m0.r)
    | (b1, none) =>
      -- if err := enc.Encode(r); err != nil { return buf.Bytes(), err }
      match lib w { m0 with buf := b1 } with
      | (m2, some err) => ((m2.buf, some err), m2.r)
      -- return buf.Bytes(), nil
      | (m2, none) => ((m2.buf, none), m2.r)

/-! ## The two-phase reference -/

/-- Reference validation following the design note of the specification:
phase 1 tests every child for membership in the whitelist and fails fast with
the single unknown-type error of the first child outside it; phase 2, reached
only otherwise, validates every child and returns ok or the aggregate of all
child errors in order. -/
def validateTwoPhase (cs : List Markup) : Option GoError :=
  match cs.find? (fun c => decide (c.Type_ ∉ whitelist)) with
  | some s => some (.validationError [.errorString (unknownTypeMsg s)])
  | none =>
    match cs.filterMap (fun c => c.Validate) with
    | [] => none
    | e :: es => some (.validationError (e :: es))

/-! ## The serialized document -/

/-- Modelled from the spec: the verb structs (`Say`, `Play`, ...) and their XML
tags are not among the sources. The wire format gives each top-level node one
nested element "named after its `typeName()`, containing its own
attributes/children per variant (out of scope here)"; the variant part of a node
is its attribute text and its inner text. -/
structure NodeContent where
  attrs : String
  inner : String

/-- Modelled from the spec: the nested element of one top-level node, named
after its `Type()`. -/
def xmlElement (c : Markup) (nc : NodeContent) : String :=
  "<" ++ c.Type_ ++ nc.attrs ++ ">" ++ nc.inner ++ "</" ++ c.Type_ ++ ">"

/-- Modelled from the spec: behaviour of `enc.Encode(r)` after
`enc.Indent("", indent)`. The root element is named by the `xml:"Response"` tag
of `XMLName`, `IgnoreValidationErrors` is left out by its `xml:"-"` tag, each
child gives one nested element on its own line after one `indent`, and nothing
follows the closing root element. No error is returned. -/
def xmlEncodeIndent (content : Markup → NodeContent) (indent : String) : XmlEncode :=
  fun r =>
    match r.Children with
    | [] => (bytesOfString "<Response></Response>", none)
    | c :: cs =>
      (bytesOfString ("<Response>" ++
          String.join ((c :: cs).map (fun d => "\n" ++ indent ++ xmlElement d (content d))) ++
          "\n</Response>"), none)

/-- The argument `"  "` of `enc.Indent("", "  ")` in `Response.Encode`. -/
def encodeIndent : String := "  "

/-- Variant content of a `Say` node speaking "Hello". -/
def helloContent : Markup → NodeContent :=
  fun _ => { attrs := "", inner := "Hello" }

/-! ## Callback records -/

/-- One field declaration of a callback struct: the Go field name, its Go type
and the value of its `schema` tag when it has one. -/
structure FieldDecl where
  name : String
  goType : String
  schemaTag : Option String
  deriving DecidableEq

/-- A callback struct declaration: the fields promoted from an embedded struct
(none when nothing is embedded) and the fields it declares itself. -/
structure RecordDecl where
  embedded : List FieldDecl
  fields : List FieldDecl

/-- Selector `x.f` on a struct: a field the struct declares itself shadows a
promoted field of the same name. -/
def RecordDecl.field? (d : RecordDecl) (n : String) : Option FieldDecl :=
  match d.fields.find? (fun f => f.name == n) with
  | some f => some f
  | none => d.embedded.find? (fun f => f.name == n)

/-- The wire name a struct declares for field `n`: its `schema` tag. -/
def RecordDecl.declaredWireName (d : RecordDecl) (n : String) : Option String :=
  (d.field? n).bind (fun f => f.schemaTag)

/-- Fields of struct `VoiceRequest`. -/
def VoiceRequestFields : List FieldDecl :=
  [ ⟨"CallSid", "string", none⟩,
    ⟨"AccountSid", "string", none⟩,
    ⟨"From", "string", none⟩,
    ⟨"To", "string", none⟩,
    ⟨"CallStatus", "string", none⟩,
    ⟨"APIVersion", "string", some "ApiVersion"⟩,
    ⟨"Direction", "string", none⟩,
    ⟨"ForwardedFrom", "string", none⟩,
    ⟨"CallerName", "string", none⟩,
    ⟨"FromCity", "string", none⟩,
    ⟨"FromState", "string", none⟩,
    ⟨"FromZip", "string", none⟩,
    ⟨"FromCountry", "string", none⟩,
    ⟨"ToCity", "string", none⟩,
    ⟨"ToState", "string", none⟩,
    ⟨"ToZip", "string", none⟩,
    ⟨"ToCountry", "string", none⟩,
    ⟨"RecordingSid", "string", none⟩,
    ⟨"RecordingURL", "string", none⟩,
    ⟨"RecordingDuration", "string", none⟩,
    ⟨"TranscriptionText", "string", none⟩,
    ⟨"TranscriptionSid", "string", none⟩,
    ⟨"TranscriptionUrl", "string", none⟩,
    ⟨"AddOns", "AddonsResults", some "AddOns"⟩,
    ⟨"FriendlyName", "string", none⟩ ]

/-- Struct `VoiceRequest`. -/
def VoiceRequest : RecordDecl :=
  { embedded := [], fields := VoiceRequestFields }

/-- Struct `DialActionRequest`, which embeds `VoiceRequest`. -/
def DialActionRequest : RecordDecl :=
  { embedded := VoiceRequestFields,
    fields :=
      [ ⟨"DialCallStatus", "string", none⟩,
        ⟨"DialCallSid", "string", none⟩,
        ⟨"DialCallDuration", "int", none⟩,
        ⟨"RecordingURL", "string", some "RecordingUrl"⟩,
        ⟨"QueueSid", "string", none⟩,
        ⟨"DequeueResult", "string", none⟩,
        ⟨"DequeuedCallSid", "string", none⟩,
        ⟨"DequeuedCallQueueTime", "int", none⟩,
        ⟨"DequeuedCallDuration", "int", none⟩ ] }

/-- Struct `RecordActionRequest`, which embeds `VoiceRequest`. -/
def RecordActionRequest : RecordDecl :=
  { embedded := VoiceRequestFields,
    fields :=
      [ ⟨"RecordingURL", "string", some "RecordingUrl"⟩,
        ⟨"RecordingDuration", "int", none⟩,
        ⟨"Digits", "string", none⟩ ] }

/-- Struct `RecordingStatusCallbackRequest`. -/
def RecordingStatusCallbackRequest : RecordDecl :=
  { embedded := [],
    fields :=
      [ ⟨"AccountSid", "string", none⟩,
        ⟨"CallSid", "string", none⟩,
        ⟨"RecordingSid", "string", none⟩,
        ⟨"RecordingURL", "string", some "RecordingUrl"⟩,
        ⟨"RecordingStatus", "string", none⟩,
        ⟨"RecordingDuration", "int", none⟩,
        ⟨"RecordingChannels", "int", none⟩,
        ⟨"RecordingSource", "string", none⟩ ] }

/-- Struct `TranscribeCallbackRequest`. -/
def TranscribeCallbackRequest : RecordDecl :=
  { embedded := [],
    fields :=
      [ ⟨"TranscriptionSid", "string", none⟩,
        ⟨"TranscriptionText", "string", none⟩,
        ⟨"TranscriptionStatus", "string", none⟩,
        ⟨"TranscriptionURL", "string", some "TranscriptionUrl"⟩,
        ⟨"RecordingSid", "string", none⟩,
        ⟨"RecordingURL", "string", some "RecordingUrl"⟩,
        ⟨"CallSid", "string", none⟩,
        ⟨"AccountSid", "string", none⟩,
        ⟨"From", "string", none⟩,
        ⟨"To", "string", none⟩,
        ⟨"CallStatus", "string", none⟩,
        ⟨"APIVersion", "string", some "ApiVersion"⟩,
        ⟨"Direction", "string", none⟩,
        ⟨"ForwardedFrom", "string", none⟩ ] }

/-- The record shapes that have a `RecordingURL` field. -/
def recordingShapes : List RecordDecl :=
  [VoiceRequest, DialActionRequest, RecordActionRequest,
   RecordingStatusCallbackRequest, TranscribeCallbackRequest]

/-! ## Lemmas on the validation loop -/

theorem validateLoop_whitelisted (cs : List Markup) (errs : List GoError)
    (hw : ∀ c ∈ cs, c.Type_ ∈ whitelist) :
    Response.validateLoop cs errs =
      if (errs ++ cs.filterMap (fun c => c.Validate)).length > 0
        then some (.validationError (errs ++ cs.filterMap (fun c => c.Validate)))
        else none := by
  induction cs generalizing errs with
  | nil => simp [Response.validateLoop]
  | cons c rest ih =>
    have hc : c.Type_ ∈ whitelist := hw c (List.mem_cons_self _ _)
    have hrest : ∀ d ∈ rest, d.Type_ ∈ whitelist :=
      fun d hd => hw d (List.mem_cons_of_mem _ hd)
    cases hv : c.Validate with
    | none =>
      simp only [Response.validateLoop, hc, if_true, hv]
      rw [ih errs hrest]
      simp [List.filterMap_cons, hv]
    | some e =>
      simp only [Response.validateLoop, hc, if_true, hv]
      rw [ih (errs ++ [e]) hrest]
      simp [List.filterMap_cons, hv]

theorem validateLoop_unknown (pre post : List Markup) (s : Markup) (errs : List GoError)
    (hpre : ∀ c ∈ pre, c.Type_ ∈ whitelist) (hs : s.Type_ ∉ whitelist) :
    Response.validateLoop (pre ++ s :: post) errs = some (unknownTypeError s) := by
  induction pre generalizing errs with
  | nil => simp [Response.validateLoop, hs, unknownTypeError]
  | cons c rest ih =>
    have hc : c.Type_ ∈ whitelist := hpre c (List.mem_cons_self _ _)
    have hrest : ∀ d ∈ rest, d.Type_ ∈ whitelist :=
      fun d hd => hpre d (List.mem_cons_of_mem _ hd)
    cases hv : c.Validate with
    | none =>
      simp only [List.cons_append, Response.validateLoop, hc, if_true, hv]
      exact ih errs hrest
    | some e =>
      simp only [List.cons_append, Response.validateLoop, hc, if_true, hv]
      exact ih (errs ++ [e]) hrest

theorem exists_first_unknown (cs : List Markup) (h : ∃ c ∈ cs, c.Type_ ∉ whitelist) :
    ∃ pre s post, cs = pre ++ s :: post ∧ (∀ c ∈ pre, c.Type_ ∈ whitelist) ∧
      s.Type_ ∉ whitelist := by
  induction cs with
  | nil => obtain ⟨c, hc, _⟩ := h; cases hc
  | cons a rest ih =>
    by_cases ha : a.Type_ ∈ whitelist
    · have hrest : ∃ c ∈ rest, c.Type_ ∉ whitelist := by
        obtain ⟨c, hc, hn⟩ := h
        rcases List.mem_cons.mp hc with rfl | hc
        · exact absurd ha hn
        · exact ⟨c, hc, hn⟩
      obtain ⟨pre, s, post, heq, hpre, hs⟩ := ih hrest
      refine ⟨a :: pre, s, post, by simp [heq], ?_, hs⟩
      intro c hc
      rcases List.mem_cons.mp hc with rfl | hc
      · exact ha
      · exact hpre c hc
    · exact ⟨[], a, rest, rfl, by simp, ha⟩

theorem validate_nonempty (r : Response) (h : r.Children ≠ []) :
    r.Validate = Response.validateLoop r.Children [] := by
  unfold Response.Validate
  have : r.Children.length ≠ 0 := by
    intro h0; exact h (List.length_eq_zero.mp h0)
  simp [this]

/-! ## Lemmas on messages -/

theorem join_cons_eq (a : String) (l : List String) :
    String.join (a :: l) = a ++ String.join l := by
  apply String.ext
  simp [String.data_join, String.data_append]

theorem foldl_sep_eq (sep : String) (es : List String) (acc : String) :
    es.foldl (fun b s => b ++ sep ++ s) acc =
      acc ++ String.join (es.map (fun s => sep ++ s)) := by
  induction es generalizing acc with
  | nil =>
    apply String.ext
    simp [String.data_join, String.data_append]
  | cons e rest ih =>
    simp only [List.foldl_cons, List.map_cons]
    rw [ih, join_cons_eq]
    apply String.ext
    simp [String.data_append]

theorem errorAll_eq_map (errs : List GoError) :
    GoError.ErrorAll errs = errs.map GoError.Error := by
  induction errs with
  | nil => simp [GoError.ErrorAll]
  | cons e rest ih => simp [GoError.ErrorAll, ih]

theorem bytesOfString_append (a b : String) :
    bytesOfString (a ++ b) = bytesOfString a ++ bytesOfString b := by
  simp [bytesOfString, String.toUTF8, List.flatMap_append]

theorem encode_of_valid (enc : XmlEncode) (r : Response) (hv : r.Validate = none) :
    Response.Encode enc r = (bytesOfString xmlHeader ++ (enc r).1, (enc r).2) := by
  unfold Response.Encode
  simp only [hv, bufWrite, List.nil_append]
  rcases h : enc r with ⟨out, _ | e⟩ <;> simp

theorem validate_single_whitelisted (xn : XMLName) (flag : Bool) (s : Markup)
    (hT : s.Type_ ∈ whitelist) (hV : s.Validate = none) :
    (Response.mk xn flag [s]).Validate = none := by
  simp [Response.Validate, Response.validateLoop, hT, hV]

theorem find_first_unknown (pre post : List Markup) (s : Markup)
    (hpre : ∀ c ∈ pre, c.Type_ ∈ whitelist) (hs : s.Type_ ∉ whitelist) :
    (pre ++ s :: post).find? (fun c => decide (c.Type_ ∉ whitelist)) = some s := by
  induction pre with
  | nil => simp [List.find?_cons, hs]
  | cons c rest ih =>
    have hc : c.Type_ ∈ whitelist := hpre c (List.mem_cons_self _ _)
    have hrest : ∀ d ∈ rest, d.Type_ ∈ whitelist :=
      fun d hd => hpre d (List.mem_cons_of_mem _ hd)
    simp only [List.cons_append, List.find?_cons, hc, not_true_eq_false, decide_False]
    exact ih hrest

theorem find_unknown_none (cs : List Markup) (hw : ∀ c ∈ cs, c.Type_ ∈ whitelist) :
    cs.find? (fun c => decide (c.Type_ ∉ whitelist)) = none := by
  rw [List.find?_eq_none]
  intro c hc
  simp [hw c hc]

theorem validate_of_unknown (r : Response) (h : ∃ c ∈ r.Children, c.Type_ ∉ whitelist) :
    ∃ pre s post, r.Children = pre ++ s :: post ∧
      (∀ c ∈ pre, c.Type_ ∈ whitelist) ∧ s.Type_ ∉ whitelist ∧
      r.Validate = some (unknownTypeError s) := by
  obtain ⟨pre, s, post, heq, hpre, hs⟩ := exists_first_unknown r.Children h
  refine ⟨pre, s, post, heq, hpre, hs, ?_⟩
  have hne : r.Children ≠ [] := by rw [heq]; simp
  rw [validate_nonempty r hne, heq, validateLoop_unknown pre post s [] hpre hs]

theorem validate_of_whitelisted (r : Response) (hne : r.Children ≠ [])
    (hw : ∀ c ∈ r.Children, c.Type_ ∈ whitelist) :
    r.Validate =
      match r.Children.filterMap (fun c => c.Validate) with
      | [] => none
      | e :: es => some (.validationError (e :: es)) := by
  rw [validate_nonempty r hne, validateLoop_whitelisted r.Children [] hw]
  cases r.Children.filterMap (fun c => c.Validate) <;> simp

theorem encode_of_invalid (enc : XmlEncode) (r : Response) (err : GoError)
    (h : r.Validate = some err) : Response.Encode enc r = ([], some err) := by
  simp [Response.Encode, h]

/-! ## Validation of a Response -/

/-- C1: a Response whose Children sequence is empty fails Validate with a
ValidationError holding exactly one error, whatever the value of
IgnoreValidationErrors (and of XMLName); there is no child to examine. -/
theorem validate_empty_single_error (xn : XMLName) (flag : Bool) :
    (Response.mk xn flag []).Validate =
        some (.validationError [.errorString "Can not encode an empty response"]) ∧
      ∃ e, (Response.mk xn flag []).Validate = some (.validationError [e]) :=
  ⟨rfl, _, rfl⟩

/-- C3: when some child has a Type() outside the whitelist, Validate returns the
ValidationError holding exactly one error, the unknown-type error naming the
concrete type of the first such child in sequence order; neither the failing
whitelisted children before it nor any child after it add an error. -/
theorem validate_unknown_type_single_error (r : Response)
    (h : ∃ c ∈ r.Children, c.Type_ ∉ whitelist) :
    ∃ pre s post, r.Children = pre ++ s :: post ∧
      (∀ c ∈ pre, c.Type_ ∈ whitelist) ∧ s.Type_ ∉ whitelist ∧
      r.Validate = some (.validationError [.errorString
        ("Unknown markup type " ++ s.goType ++ " as child of Response")]) := by
  obtain ⟨pre, s, post, heq, hpre, hs⟩ := exists_first_unknown r.Children h
  refine ⟨pre, s, post, heq, hpre, hs, ?_⟩
  have hne : r.Children ≠ [] := by rw [heq]; simp
  rw [validate_nonempty r hne, heq, validateLoop_unknown pre post s [] hpre hs]
  rfl

/-- Witness for C3: a failing Say, then a Message node, then a failing Play. -/
theorem validate_unknown_type_single_error_witness :
    (∃ c ∈ (Response.mk ⟨"", ""⟩ false [sayBad, messageNode, playBad]).Children,
        c.Type_ ∉ whitelist) ∧
    ∃ pre s post,
      (Response.mk ⟨"", ""⟩ false [sayBad, messageNode, playBad]).Children
          = pre ++ s :: post ∧
      (∀ c ∈ pre, c.Type_ ∈ whitelist) ∧ s.Type_ ∉ whitelist ∧
      (Response.mk ⟨"", ""⟩ false [sayBad, messageNode, playBad]).Validate =
        some (.validationError [.errorString
          ("Unknown markup type " ++ s.goType ++ " as child of Response")]) :=
  ⟨⟨messageNode, by simp, by decide⟩,
   validate_unknown_type_single_error _ ⟨messageNode, by simp, by decide⟩⟩

/-- C4: for a non-empty Response whose children all have whitelisted type names
and of which at least one fails its own Validate, Validate returns the
ValidationError whose Errors list is exactly the failing children's errors, one
entry per failing child, in child order. -/
theorem validate_accumulates_child_errors (r : Response)
    (hne : r.Children ≠ [])
    (hw : ∀ c ∈ r.Children, c.Type_ ∈ whitelist)
    (hf : ∃ c ∈ r.Children, c.Validate ≠ none) :
    r.Validate = some (.validationError (r.Children.filterMap (fun c => c.Validate))) ∧
      (r.Children.filterMap (fun c => c.Validate)).length =
        (r.Children.filter (fun c => c.Validate.isSome)).length := by
  constructor
  · rw [validate_nonempty r hne, validateLoop_whitelisted r.Children [] hw]
    obtain ⟨c, hc, hv⟩ := hf
    obtain ⟨e, he⟩ := Option.ne_none_iff_exists'.mp hv
    have hmem : e ∈ r.Children.filterMap (fun c => c.Validate) :=
      List.mem_filterMap.mpr ⟨c, hc, he⟩
    have hpos : 0 < (r.Children.filterMap (fun c => c.Validate)).length :=
      List.length_pos_of_mem hmem
    simp [hpos]
  · clear hne hw hf
    induction r.Children with
    | nil => rfl
    | cons c rest ih =>
      cases hv : c.Validate <;> simp [List.filterMap_cons, List.filter_cons, hv, ih]

/-- Witness for C4: three whitelisted children of which two fail give exactly
the two errors of the failing ones, in order. -/
theorem validate_accumulates_child_errors_witness :
    (Response.mk ⟨"", ""⟩ false [sayBad, sayOk, playBad]).Children ≠ [] ∧
    (∀ c ∈ (Response.mk ⟨"", ""⟩ false [sayBad, sayOk, playBad]).Children,
      c.Type_ ∈ whitelist) ∧
    (∃ c ∈ (Response.mk ⟨"", ""⟩ false [sayBad, sayOk, playBad]).Children,
      c.Validate ≠ none) ∧
    (Response.mk ⟨"", ""⟩ false [sayBad, sayOk, playBad]).Validate =
        some (.validationError
          [.validationError [.errorString "Say: invalid voice"],
           .validationError [.errorString "Play: invalid loop"]]) ∧
      ([sayBad, sayOk, playBad].filterMap (fun c => c.Validate)).length = 2 :=
  ⟨by simp, by decide, ⟨sayBad, by simp, by simp [sayBad]⟩,
   (validate_accumulates_child_errors
      (Response.mk ⟨"", ""⟩ false [sayBad, sayOk, playBad])
      (by simp) (by decide) ⟨sayBad, by simp, by simp [sayBad]⟩).1, rfl⟩

/-- C5: a non-empty Response whose children all have whitelisted type names and
all pass their own Validate passes Validate. -/
theorem validate_ok_of_valid_children (r : Response)
    (hne : r.Children ≠ [])
    (hw : ∀ c ∈ r.Children, c.Type_ ∈ whitelist)
    (hv : ∀ c ∈ r.Children, c.Validate = none) :
    r.Validate = none := by
  rw [validate_nonempty r hne, validateLoop_whitelisted r.Children [] hw]
  have hnil : r.Children.filterMap (fun c => c.Validate) = [] := by
    rw [List.filterMap_eq_nil_iff]
    exact hv
  simp [hnil]

/-- Witness for C5: two valid Say nodes. -/
theorem validate_ok_of_valid_children_witness :
    (Response.mk ⟨"", ""⟩ false [sayOk, sayOk]).Children ≠ [] ∧
      (∀ c ∈ (Response.mk ⟨"", ""⟩ false [sayOk, sayOk]).Children,
        c.Type_ ∈ whitelist) ∧
      (∀ c ∈ (Response.mk ⟨"", ""⟩ false [sayOk, sayOk]).Children,
        c.Validate = none) ∧
      (Response.mk ⟨"", ""⟩ false [sayOk, sayOk]).Validate = none :=
  ⟨by simp, by decide, by simp [sayOk],
   validate_ok_of_valid_children _ (by simp) (by decide) (by simp [sayOk])⟩

/-! ## Encoding -/

/-- C2 as stated fails: the message of the error Encode returns for a fresh
Response does not contain "cannot encode an empty response". -/
theorem encode_new_response_message_mismatch :
    ∃ e, Response.Encode sampleEncode NewResponse = ([], some e) ∧
      e.Error = "Invalid TwiML markup:\nCan not encode an empty response" ∧
      ¬ containsText e.Error "cannot encode an empty response" :=
  ⟨emptyResponseError, rfl, by decide, by decide⟩

/-- C2, amended: for the Response created by NewResponse with no child added,
Encode returns zero output bytes and an error whose message contains the exact
substring "Can not encode an empty response". -/
theorem encode_new_response_error (enc : XmlEncode) :
    ∃ e, Response.Encode enc NewResponse = ([], some e) ∧
      containsText e.Error "Can not encode an empty response" :=
  ⟨emptyResponseError, rfl, by decide⟩

/-- C6: when Validate fails on a Response, Encode returns exactly the error
that Validate returns and zero output bytes. -/
theorem encode_returns_validate_error (enc : XmlEncode) (r : Response) (err : GoError)
    (h : r.Validate = some err) :
    Response.Encode enc r = ([], some err) := by
  simp [Response.Encode, h]

/-- Witness for C6: a Response holding a Message node. -/
theorem encode_returns_validate_error_witness :
    (Response.mk ⟨"", ""⟩ false [messageNode]).Validate
        = some (unknownTypeError messageNode) ∧
      Response.Encode sampleEncode (Response.mk ⟨"", ""⟩ false [messageNode])
        = ([], some (unknownTypeError messageNode)) :=
  ⟨rfl, encode_returns_validate_error sampleEncode _ _ rfl⟩

/-- C7 as stated fails: with IgnoreValidationErrors set to true and a failing
Validate, Encode still returns the validation error, with no output. -/
theorem encode_flag_does_not_suppress :
    (Response.mk ⟨"", ""⟩ true [sayBad]).IgnoreValidationErrors = true ∧
      (Response.mk ⟨"", ""⟩ true [sayBad]).Validate
        = some (.validationError
            [.validationError [.errorString "Say: invalid voice"]]) ∧
      Response.Encode sampleEncode (Response.mk ⟨"", ""⟩ true [sayBad])
        = ([], some (.validationError
            [.validationError [.errorString "Say: invalid voice"]])) :=
  ⟨rfl, rfl, rfl⟩

/-- C7, amended: IgnoreValidationErrors does not suppress validation errors
during encoding. For a Response with the flag set to true whose Validate fails,
Encode returns that validation error and zero bytes, serialization is not
attempted (the result is the same for every encoder behaviour), and the result
equals the one obtained with the flag set to false. -/
theorem encode_with_flag_returns_validate_error (enc : XmlEncode) (r : Response)
    (err : GoError) (_hflag : r.IgnoreValidationErrors = true)
    (h : r.Validate = some err) :
    Response.Encode enc r = ([], some err) ∧
      (∀ enc2 : XmlEncode, Response.Encode enc2 r = Response.Encode enc r) ∧
      Response.Encode enc { r with IgnoreValidationErrors := false }
        = Response.Encode enc r := by
  have hv : ({ r with IgnoreValidationErrors := false } : Response).Validate
      = some err := h
  refine ⟨?_, ?_, ?_⟩
  · simp [Response.Encode, h]
  · intro enc2; simp [Response.Encode, h]
  · simp only [Response.Encode, hv, h]

/-- Witness for C7, amended: an empty Response with the flag set. -/
theorem encode_with_flag_returns_validate_error_witness :
    (Response.mk ⟨"", ""⟩ true []).IgnoreValidationErrors = true ∧
      (Response.mk ⟨"", ""⟩ true []).Validate = some emptyResponseError ∧
      Response.Encode sampleEncode (Response.mk ⟨"", ""⟩ true [])
        = ([], some emptyResponseError) :=
  ⟨rfl, rfl, (encode_with_flag_returns_validate_error sampleEncode
    (Response.mk ⟨"", ""⟩ true []) emptyResponseError rfl rfl).1⟩

/-! ## Add -/

theorem add_children (ml : List Markup) (r : Response) :
    r.Add ml = { r with Children := r.Children ++ ml } := by
  unfold Response.Add
  induction ml generalizing r with
  | nil => simp
  | cons s rest ih => simp [List.foldl_cons, ih]

/-- C8: Add never fails (it is total) and leaves Children equal to the previous
Children followed by the arguments in call order, whatever the arguments are;
existing children keep their positions, IgnoreValidationErrors and XMLName are
unchanged. Two successive calls equal one call with the concatenated arguments,
and a call without arguments changes nothing. -/
theorem add_appends_in_order (r : Response) (a b : List Markup) :
    (r.Add a).Children = r.Children ++ a ∧
      (∀ i, i < r.Children.length → (r.Add a).Children.get? i = r.Children.get? i) ∧
      (r.Add a).IgnoreValidationErrors = r.IgnoreValidationErrors ∧
      (r.Add a).XMLName = r.XMLName ∧
      (r.Add a).Add b = r.Add (a ++ b) ∧
      r.Add [] = r := by
  refine ⟨?_, ?_, ?_, ?_, ?_, ?_⟩
  · rw [add_children]
  · intro i hi
    rw [add_children]
    simp [List.getElem?_append_left hi]
  · rw [add_children]
  · rw [add_children]
  · simp [add_children]
  · rfl

/-! ## Messages -/

/-- C9: the message of a ValidationError is the banner "Invalid TwiML markup:"
followed by the message of each error of Errors in order, each preceded by a
newline; with zero errors it is exactly the banner, and it always starts with
the banner. -/
theorem validationError_message (v : ValidationError) :
    v.Error = "Invalid TwiML markup:" ++
        String.join (v.Errors.map (fun e => "\n" ++ e.Error)) ∧
      (ValidationError.mk []).Error = "Invalid TwiML markup:" ∧
      "Invalid TwiML markup:".data <+: v.Error.data := by
  have hmain : v.Error = "Invalid TwiML markup:" ++
      String.join (v.Errors.map (fun e => "\n" ++ e.Error)) := by
    simp only [ValidationError.Error, ValidationError.toError, GoError.Error,
      stringsJoin, banner]
    rw [foldl_sep_eq, errorAll_eq_map, List.map_map]
    rfl
  refine ⟨hmain, rfl, ?_⟩
  rw [hmain, String.data_append]
  exact List.prefix_append _ _

/-! ## String -/

/-- C10: String returns the bytes that Encode returns, converted to text,
together with exactly the error that Encode returns; when validation fails the
text is empty and the error is the validation error. -/
theorem string_matches_encode (enc : XmlEncode) (r : Response) :
    (Response.String enc r).1 = GoText.ofBytes (Response.Encode enc r).1 ∧
      (Response.String enc r).1.bytes = (Response.Encode enc r).1 ∧
      (Response.String enc r).2 = (Response.Encode enc r).2 ∧
      (∀ err, r.Validate = some err →
        Response.String enc r = (GoText.ofBytes [], some err)) := by
  refine ⟨rfl, rfl, rfl, ?_⟩
  intro err h
  simp [Response.String, Response.Encode, h]

/-- Witness for C10: the text is empty for a fresh Response. -/
theorem string_matches_encode_witness :
    NewResponse.Validate = some emptyResponseError ∧
      Response.String sampleEncode NewResponse
        = (GoText.ofBytes [], some emptyResponseError) :=
  ⟨rfl, (string_matches_encode sampleEncode NewResponse).2.2.2 emptyResponseError rfl⟩

/-! ## Repeated encoding -/

theorem encodeCall_of_valid (lib : XmlEncodeCall) (w : Nat) (r : Response)
    (hv : r.Validate = none) :
    Response.EncodeCall lib w r =
      (((lib w { r := r, buf := bytesOfString xmlHeader }).1.buf,
        (lib w { r := r, buf := bytesOfString xmlHeader }).2),
       (lib w { r := r, buf := bytesOfString xmlHeader }).1.r) := by
  unfold Response.EncodeCall
  simp only [hv, bufWrite, List.nil_append]
  rcases h : lib w { r := r, buf := bytesOfString xmlHeader } with ⟨m2, _ | e⟩ <;> rfl

theorem encodeCall_ofPure (enc : XmlEncode) (w : Nat) (r : Response) :
    Response.EncodeCall (XmlEncodeCall.ofPure enc) w r = (Response.Encode enc r, r) := by
  cases hv : r.Validate with
  | some err => simp [Response.EncodeCall, Response.Encode, hv]
  | none =>
    rw [encodeCall_of_valid _ w r hv, encode_of_valid enc r hv]
    simp [XmlEncodeCall.ofPure]

theorem encodeCall_unstable_differs :
    (Response.EncodeCall unstableCall 0 (Response.mk ⟨"", ""⟩ false [sayOk])).1.1 ≠
      (Response.EncodeCall unstableCall 1 (Response.mk ⟨"", ""⟩ false [sayOk])).1.1 := by
  rw [encodeCall_of_valid unstableCall 0 (Response.mk ⟨"", ""⟩ false [sayOk]) rfl,
    encodeCall_of_valid unstableCall 1 (Response.mk ⟨"", ""⟩ false [sayOk]) rfl]
  simp [unstableCall]

theorem encodeCall_clearing_modifies :
    (Response.EncodeCall clearingCall 0 (Response.mk ⟨"", ""⟩ false [sayOk])).2.Children
      ≠ (Response.mk ⟨"", ""⟩ false [sayOk]).Children := by
  rw [encodeCall_of_valid clearingCall 0 (Response.mk ⟨"", ""⟩ false [sayOk]) rfl]
  simp [clearingCall]

/-- C11: Encode is deterministic and does not modify the Response. With a
library encoder whose result is fixed by the struct and buffer it is handed and
which leaves that struct as it is, for every valid Response the receiver after
an Encode call equals the receiver before it (Children and flag included), and
a second call on it returns the same bytes and the same error as the first and
again leaves the receiver unchanged. -/
theorem encode_deterministic (lib : XmlEncodeCall)
    (hdet : ∀ w1 w2 m, lib w1 m = lib w2 m)
    (hframe : ∀ w m, (lib w m).1.r = m.r)
    (w1 w2 : Nat) (r : Response) (hv : r.Validate = none) :
    (Response.EncodeCall lib w1 r).2 = r ∧
      (Response.EncodeCall lib w1 r).2.Children = r.Children ∧
      (Response.EncodeCall lib w1 r).2.IgnoreValidationErrors
        = r.IgnoreValidationErrors ∧
      (Response.EncodeCall lib w2 (Response.EncodeCall lib w1 r).2).1
        = (Response.EncodeCall lib w1 r).1 ∧
      (Response.EncodeCall lib w2 (Response.EncodeCall lib w1 r).2).2 = r := by
  have h1 : (Response.EncodeCall lib w1 r).2 = r := by
    rw [encodeCall_of_valid lib w1 r hv]
    exact hframe w1 _
  have h2 : (Response.EncodeCall lib w2 r).2 = r := by
    rw [encodeCall_of_valid lib w2 r hv]
    exact hframe w2 _
  refine ⟨h1, by rw [h1], by rw [h1], ?_, ?_⟩
  · rw [h1, encodeCall_of_valid lib w2 r hv, encodeCall_of_valid lib w1 r hv,
      hdet w2 w1]
  · rw [h1, h2]

/-- Witness for C11: two Encode calls on a Response holding one valid Say node,
with the library call that appends the sample encoder's bytes. -/
theorem encode_deterministic_witness :
    (∀ w1 w2 m, XmlEncodeCall.ofPure sampleEncode w1 m
        = XmlEncodeCall.ofPure sampleEncode w2 m) ∧
      (∀ w m, (XmlEncodeCall.ofPure sampleEncode w m).1.r = m.r) ∧
      (Response.mk ⟨"", ""⟩ false [sayOk]).Validate = none ∧
      (Response.EncodeCall (XmlEncodeCall.ofPure sampleEncode) 1
          (Response.EncodeCall (XmlEncodeCall.ofPure sampleEncode) 0
            (Response.mk ⟨"", ""⟩ false [sayOk])).2).1
        = (Response.EncodeCall (XmlEncodeCall.ofPure sampleEncode) 0
            (Response.mk ⟨"", ""⟩ false [sayOk])).1 ∧
      (Response.EncodeCall (XmlEncodeCall.ofPure sampleEncode) 0
          (Response.mk ⟨"", ""⟩ false [sayOk])).2.Children = [sayOk] :=
  ⟨fun _ _ _ => rfl, fun _ _ => rfl, rfl,
   (encode_deterministic (XmlEncodeCall.ofPure sampleEncode)
      (fun _ _ _ => rfl) (fun _ _ => rfl) 0 1
      (Response.mk ⟨"", ""⟩ false [sayOk]) rfl).2.2.2.1,
   (encode_deterministic (XmlEncodeCall.ofPure sampleEncode)
      (fun _ _ _ => rfl) (fun _ _ => rfl) 0 1
      (Response.mk ⟨"", ""⟩ false [sayOk]) rfl).2.1⟩

/-! ## The document of a single Say node -/

/-- C12: for a Response holding a single valid Say-type node, Encode succeeds and
returns the XML header, then the opening Response element, then on its own line
after exactly two spaces one nested element named Say (the node's Type()), then
on its own line the closing Response element, with nothing after it. -/
theorem encode_single_say (content : Markup → NodeContent) (xn : XMLName)
    (flag : Bool) (s : Markup) (hT : s.Type_ = "Say") (hV : s.Validate = none) :
    Response.Encode (xmlEncodeIndent content encodeIndent) (Response.mk xn flag [s]) =
      (bytesOfString
        ("<?xml version=\"1.0\" encoding=\"UTF-8\"?>\n" ++
          ("<Response>" ++
            ("\n  " ++ ("<Say" ++ (content s).attrs ++ ">" ++ (content s).inner ++ "</Say>")) ++
            "\n</Response>")), none) := by
  have hw : s.Type_ ∈ whitelist := by rw [hT]; decide
  rw [encode_of_valid _ _ (validate_single_whitelisted xn flag s hw hV)]
  simp only [xmlEncodeIndent, xmlElement, encodeIndent, hT, List.map_cons, List.map_nil]
  rw [← bytesOfString_append]
  have hdoc : xmlHeader ++
        ("<Response>" ++
          String.join ["\n" ++ "  " ++
            ("<" ++ "Say" ++ (content s).attrs ++ ">" ++ (content s).inner ++ "</" ++ "Say" ++ ">")]
          ++ "\n</Response>")
      = "<?xml version=\"1.0\" encoding=\"UTF-8\"?>\n" ++
        ("<Response>" ++
          ("\n  " ++ ("<Say" ++ (content s).attrs ++ ">" ++ (content s).inner ++ "</Say>")) ++
          "\n</Response>") := by
    apply String.ext
    simp [String.data_append, String.data_join, xmlHeader]
  rw [hdoc]

/-- Witness for C12: the document of a Say node speaking "Hello". -/
theorem encode_single_say_witness :
    sayOk.Type_ = "Say" ∧ sayOk.Validate = none ∧
      Response.Encode (xmlEncodeIndent helloContent encodeIndent)
          (Response.mk ⟨"", ""⟩ false [sayOk]) =
        (bytesOfString
          ("<?xml version=\"1.0\" encoding=\"UTF-8\"?>\n" ++
            ("<Response>" ++
              ("\n  " ++ ("<Say" ++ (helloContent sayOk).attrs ++ ">" ++
                (helloContent sayOk).inner ++ "</Say>")) ++
              "\n</Response>")), none) :=
  ⟨rfl, rfl, encode_single_say helloContent ⟨"", ""⟩ false sayOk rfl rfl⟩

/-! ## The verbs named by the comment of Add -/

/-- C13, evaluated on the code: "Message", named as a valid verb in the comment
of Add, is outside the whitelist, so a Response holding a single child whose
Type() is "Message" fails Validate with the unknown-type error even when the
child's own Validate returns ok; the nine other names of the comment pass. -/
theorem validate_rejects_message (xn : XMLName) (flag : Bool) (g : String) :
    "Message" ∉ whitelist ∧
      (Response.mk xn flag [⟨g, "Message", none⟩]).Validate =
        some (.validationError [.errorString
          ("Unknown markup type " ++ g ++ " as child of Response")]) ∧
      (["Enqueue", "Say", "Leave", "Pause", "Play", "Record", "Redirect", "Reject",
        "Hangup"].all
          (fun n => ((Response.mk xn flag [⟨g, n, none⟩]).Validate).isNone)) = true :=
  ⟨by decide, rfl, rfl⟩

/-! ## Wire names of the callback records -/

/-- C14, evaluated on the declarations: the RecordingURL field of VoiceRequest
declares no wire name, while DialActionRequest, RecordActionRequest,
RecordingStatusCallbackRequest and TranscribeCallbackRequest declare
"RecordingUrl" for theirs; the AddOns field of VoiceRequest declares "AddOns"
and has type AddonsResults. -/
theorem voiceRequest_recordingURL_untagged :
    VoiceRequest.field? "RecordingURL" = some ⟨"RecordingURL", "string", none⟩ ∧
      recordingShapes.map (fun d => d.declaredWireName "RecordingURL") =
        [none, some "RecordingUrl", some "RecordingUrl", some "RecordingUrl",
         some "RecordingUrl"] ∧
      VoiceRequest.field? "AddOns" = some ⟨"AddOns", "AddonsResults", some "AddOns"⟩ := by
  decide

/-! ## Validate against the two-phase reference -/

/-- C15: for every non-empty Response, the single interleaved loop of Validate
returns what the two-phase reference returns: the single unknown-type error of
the first child outside the whitelist if there is one, and otherwise ok or the
aggregate of all child errors in order. -/
theorem validate_eq_twoPhase (r : Response) (hne : r.Children ≠ []) :
    r.Validate = validateTwoPhase r.Children := by
  by_cases h : ∃ c ∈ r.Children, c.Type_ ∉ whitelist
  · obtain ⟨pre, s, post, heq, hpre, hs, hv⟩ := validate_of_unknown r h
    rw [hv]
    unfold validateTwoPhase
    rw [heq, find_first_unknown pre post s hpre hs]
    rfl
  · have hw : ∀ c ∈ r.Children, c.Type_ ∈ whitelist := by
      intro c hc
      by_contra hn
      exact h ⟨c, hc, hn⟩
    rw [validate_of_whitelisted r hne hw]
    unfold validateTwoPhase
    rw [find_unknown_none r.Children hw]

/-- Witness for C15: a failing Say, a Message node and a failing Play. -/
theorem validate_eq_twoPhase_witness :
    (Response.mk ⟨"", ""⟩ false [sayBad, messageNode, playBad]).Children ≠ [] ∧
      (Response.mk ⟨"", ""⟩ false [sayBad, messageNode, playBad]).Validate
        = validateTwoPhase [sayBad, messageNode, playBad] :=
  ⟨by simp, validate_eq_twoPhase _ (by simp)⟩

/-! ## When Validate returns ok -/

/-- C16: Validate returns ok exactly when the Response is non-empty, every
child's Type() is whitelisted and every child's own Validate returns ok. In every
other case the result is a ValidationError whose Errors list is non-empty; it has
exactly one entry for the empty Response and at most as many entries as there
are children otherwise. -/
theorem validate_ok_iff (r : Response) :
    (r.Validate = none ↔
        (r.Children ≠ [] ∧ (∀ c ∈ r.Children, c.Type_ ∈ whitelist) ∧
          ∀ c ∈ r.Children, c.Validate = none)) ∧
      (∀ e, r.Validate = some e →
        ∃ errs, e = .validationError errs ∧ errs ≠ [] ∧
          (r.Children = [] → errs.length = 1) ∧
          (r.Children ≠ [] → errs.length ≤ r.Children.length)) := by
  by_cases hne : r.Children = []
  · have hv : r.Validate = some emptyResponseError := by
      simp [Response.Validate, hne, emptyResponseError]
    constructor
    · simp [hv, hne]
    · intro e he
      rw [hv] at he
      cases he
      exact ⟨_, rfl, by simp, fun _ => rfl, fun h => absurd hne h⟩
  · by_cases h : ∃ c ∈ r.Children, c.Type_ ∉ whitelist
    · obtain ⟨pre, s, post, heq, _, _, hv⟩ := validate_of_unknown r h
      constructor
      · constructor
        · intro h0; rw [hv] at h0; cases h0
        · rintro ⟨_, hw, _⟩
          obtain ⟨c, hc, hn⟩ := h
          exact absurd (hw c hc) hn
      · intro e he
        rw [hv] at he
        cases he
        refine ⟨_, rfl, by simp, fun h0 => absurd h0 hne, fun _ => ?_⟩
        rw [heq]
        simp only [List.length_append, List.length_cons, List.length_nil]
        omega
    · have hw : ∀ c ∈ r.Children, c.Type_ ∈ whitelist := by
        intro c hc
        by_contra hn
        exact h ⟨c, hc, hn⟩
      have hv := validate_of_whitelisted r hne hw
      have hlen : (r.Children.filterMap (fun c => c.Validate)).length
          ≤ r.Children.length := List.length_filterMap_le _ _
      cases hf : r.Children.filterMap (fun c => c.Validate) with
      | nil =>
        rw [hf] at hv
        constructor
        · constructor
          · intro _
            exact ⟨hne, hw, List.filterMap_eq_nil_iff.mp hf⟩
          · intro _; exact hv
        · intro e he
          rw [hv] at he
          cases he
      | cons e0 es =>
        rw [hf] at hv hlen
        constructor
        · constructor
          · intro h0; rw [hv] at h0; cases h0
          · rintro ⟨_, _, hall⟩
            have := List.filterMap_eq_nil_iff.mpr hall
            rw [hf] at this
            cases this
        · intro e he
          rw [hv] at he
          cases he
          exact ⟨_, rfl, by simp, fun h0 => absurd h0 hne, fun _ => hlen⟩

/-- Witness for C16: two of three whitelisted children fail, and the aggregate
holds a non-empty list of at most three errors. -/
theorem validate_ok_iff_witness :
    (Response.mk ⟨"", ""⟩ false [sayBad, sayOk, playBad]).Validate
        = some (.validationError
            [.validationError [.errorString "Say: invalid voice"],
             .validationError [.errorString "Play: invalid loop"]]) ∧
      ∃ errs,
        GoError.validationError
            [.validationError [.errorString "Say: invalid voice"],
             .validationError [.errorString "Play: invalid loop"]]
          = .validationError errs ∧ errs ≠ [] ∧
        ((Response.mk ⟨"", ""⟩ false [sayBad, sayOk, playBad]).Children = [] →
          errs.length = 1) ∧
        ((Response.mk ⟨"", ""⟩ false [sayBad, sayOk, playBad]).Children ≠ [] →
          errs.length ≤ (Response.mk ⟨"", ""⟩ false [sayBad, sayOk, playBad]).Children.length) :=
  ⟨rfl, (validate_ok_iff (Response.mk ⟨"", ""⟩ false [sayBad, sayOk, playBad])).2 _ rfl⟩

/-! ## Independence of the flag -/

/-- C17: the results of Validate, Encode and String do not depend on
IgnoreValidationErrors. For two Responses with the same XMLName and Children and
any two values of the flag, Validate returns the same error, and with an encoder
that leaves the flag out (its tag is "-") Encode and String return the same
bytes, text and error. -/
theorem results_independent_of_flag (enc : XmlEncode)
    (henc : ∀ xn cs b1 b2, enc (Response.mk xn b1 cs) = enc (Response.mk xn b2 cs))
    (xn : XMLName) (cs : List Markup) (b1 b2 : Bool) :
    (Response.mk xn b1 cs).Validate = (Response.mk xn b2 cs).Validate ∧
      Response.Encode enc (Response.mk xn b1 cs)
        = Response.Encode enc (Response.mk xn b2 cs) ∧
      Response.String enc (Response.mk xn b1 cs)
        = Response.String enc (Response.mk xn b2 cs) := by
  have hv : (Response.mk xn b1 cs).Validate = (Response.mk xn b2 cs).Validate := rfl
  have he : Response.Encode enc (Response.mk xn b1 cs)
      = Response.Encode enc (Response.mk xn b2 cs) := by
    simp only [Response.Encode, hv, henc xn cs b1 b2]
  refine ⟨hv, he, ?_⟩
  simp only [Response.String, he]

/-- Witness for C17: a Response holding a Say node, with the flag set and
cleared. -/
theorem results_independent_of_flag_witness :
    (∀ xn cs b1 b2, sampleEncode (Response.mk xn b1 cs)
        = sampleEncode (Response.mk xn b2 cs)) ∧
      (Response.mk ⟨"", ""⟩ true [sayBad]).Validate
        = (Response.mk ⟨"", ""⟩ false [sayBad]).Validate ∧
      Response.Encode sampleEncode (Response.mk ⟨"", ""⟩ true [sayOk])
        = Response.Encode sampleEncode (Response.mk ⟨"", ""⟩ false [sayOk]) :=
  ⟨fun _ _ _ _ => rfl,
   (results_independent_of_flag sampleEncode (fun _ _ _ _ => rfl)
      ⟨"", ""⟩ [sayBad] true false).1,
   (results_independent_of_flag sampleEncode (fun _ _ _ _ => rfl)
      ⟨"", ""⟩ [sayOk] true false).2.1⟩

/-! ## A Response as a child -/

/-- C18: a Response used as a Markup value has Type() "Response", which is
outside the whitelist, so every Response holding one among its children fails
Validate and Encode returns that error with no output, however valid the nested
Response is; when the nested Response is the first child outside the whitelist
the error is the single unknown-type error naming its type. -/
theorem nested_response_rejected (enc : XmlEncode) (r inner : Response)
    (h : inner.toMarkup ∈ r.Children) :
    inner.toMarkup.Type_ = "Response" ∧ "Response" ∉ whitelist ∧
      (∃ e, r.Validate = some e ∧ Response.Encode enc r = ([], some e)) ∧
      (∀ pre post, r.Children = pre ++ inner.toMarkup :: post →
        (∀ c ∈ pre, c.Type_ ∈ whitelist) →
        r.Validate = some (.validationError [.errorString
            "Unknown markup type *twiml.Response as child of Response"]) ∧
          Response.Encode enc r = ([], some (.validationError [.errorString
            "Unknown markup type *twiml.Response as child of Response"]))) := by
  have hn : inner.toMarkup.Type_ ∉ whitelist := by
    simp only [Response.toMarkup, Response.Type_]; decide
  refine ⟨rfl, by decide, ?_, ?_⟩
  · obtain ⟨_, s, _, _, _, _, hv⟩ := validate_of_unknown r ⟨inner.toMarkup, h, hn⟩
    exact ⟨_, hv, encode_of_invalid enc r _ hv⟩
  · intro pre post heq hpre
    have hne : r.Children ≠ [] := by rw [heq]; simp
    have hv : r.Validate = some (.validationError [.errorString
        "Unknown markup type *twiml.Response as child of Response"]) := by
      rw [validate_nonempty r hne, heq,
        validateLoop_unknown pre post inner.toMarkup [] hpre hn]
      have hm : unknownTypeMsg inner.toMarkup
          = "Unknown markup type *twiml.Response as child of Response" := by
        simp only [unknownTypeMsg, Response.toMarkup]; decide
      simp only [unknownTypeError, hm]
    exact ⟨hv, encode_of_invalid enc r _ hv⟩

/-- Witness for C18: a valid Response nested after a valid Say node. -/
theorem nested_response_rejected_witness :
    (Response.mk ⟨"", ""⟩ false [sayOk]).Validate = none ∧
      (Response.mk ⟨"", ""⟩ false [sayOk]).toMarkup ∈
        (Response.mk ⟨"", ""⟩ false
          [sayOk, (Response.mk ⟨"", ""⟩ false [sayOk]).toMarkup]).Children ∧
      ∃ e, (Response.mk ⟨"", ""⟩ false
            [sayOk, (Response.mk ⟨"", ""⟩ false [sayOk]).toMarkup]).Validate = some e ∧
        Response.Encode sampleEncode (Response.mk ⟨"", ""⟩ false
            [sayOk, (Response.mk ⟨"", ""⟩ false [sayOk]).toMarkup]) = ([], some e) :=
  ⟨rfl, by simp,
   (nested_response_rejected sampleEncode
      (Response.mk ⟨"", ""⟩ false [sayOk, (Response.mk ⟨"", ""⟩ false [sayOk]).toMarkup])
      (Response.mk ⟨"", ""⟩ false [sayOk]) (by simp)).2.2.1⟩

end Twiml
